import Mathlib

/-!
Verification of the chores/allowance persistence layer.

This development shallowly embeds the storage core of the repository:

* `BaseJsonStore` (jsonfile_manager.py): generic load/save/reset of one JSON
  file, with auto-initialisation on missing/corrupt data.  The JSON text layer
  (Python's `json.dump`/`json.load`) is modelled by an executable token-level
  serializer/parser over an inductive `Json` type, and the file by the token
  list it holds.
* `FileConfigStore`, `FileStateStore`, `FileAllowanceStore` default contents.
* `FileAllowanceRepository` (jsonfile_manager.py) operating on the decoded
  content of the allowance file.
* `CosmosStateStore` and `CosmosAllowanceRepository` (cosmosdb_manager.py),
  with the allowance container modelled as the list of account and
  transaction documents it holds, partitioned by `userId`.
* the weekly settlement route `end_week` (src/app.py).

Python `float` amounts are modelled by exact rationals (`ℚ`); wall-clock time
and the uuid source are modelled by a monotone counter threaded through the
state, so each operation sees a fresh timestamp, as successive calls of
`datetime.now` do.  Fallible Python code (expressions that raise) is modelled
with `Except`, paired with the state reached before the exception.
-/
namespace Chores

/-! ### Python dict primitives

Association lists with Python `dict` semantics: `dict_set` models
`d[k] = v` (updates the existing binding in place, otherwise appends),
`dict_update` models `d.update(new)`, `List.lookup` models `d[k]`/`d.get(k)`.
-/
/-- Python dict lookup `d.get(k)` on an association list (first binding wins). -/
def alookup {α : Type} (m : List (String × α)) (k : String) : Option α :=
  match m with
  | [] => none
  | (a, b) :: rest => if k = a then some b else alookup rest k

/-- Python `d[k] = v` on an association list: replaces the binding in place
when the key is present (dicts keep insertion order), else appends it. -/
def dict_set {α : Type} (m : List (String × α)) (k : String) (v : α) : List (String × α) :=
  match m with
  | [] => [(k, v)]
  | (a, b) :: rest => if a = k then (k, v) :: rest else (a, b) :: dict_set rest k v

/-- Python `d.update(new)` on association lists. -/
def dict_update {α : Type} (m new : List (String × α)) : List (String × α) :=
  new.foldl (fun acc p => dict_set acc p.1 p.2) m

/-- Python `d.get(k, dflt)`. -/
def dict_get {α : Type} (m : List (String × α)) (k : String) (dflt : α) : α :=
  (alookup m k).getD dflt

/-! ### JSON documents and the file codec

`Json` is the value domain of the stores (string-keyed mappings, sequences,
numbers, strings, booleans, null).  `ser_val` and `parse_val` model the
round trip through JSON text performed by `json.dump`/`json.load`, at the
level of a token stream; `parse_val` is fuelled (one token consumed per unit
of fuel) and rejects streams with trailing garbage, as `json.load` does.
-/
inductive Json where
  | null
  | bool (b : Bool)
  | num (q : ℚ)
  | str (s : String)
  | arr (xs : List Json)
  | obj (fields : List (String × Json))

inductive JTok where
  | lbrace
  | rbrace
  | lbrack
  | rbrack
  | colon
  | comma
  | tnull
  | tbool (b : Bool)
  | tnum (q : ℚ)
  | tstr (s : String)

mutual

/-- Token stream of a JSON value, as `json.dump` writes it. -/
def ser_val : Json → List JTok
  | .null => [.tnull]
  | .bool b => [.tbool b]
  | .num q => [.tnum q]
  | .str s => [.tstr s]
  | .arr [] => [.lbrack, .rbrack]
  | .arr (x :: xs) => .lbrack :: (ser_val x ++ ser_items xs)
  | .obj [] => [.lbrace, .rbrace]
  | .obj ((k, v) :: fs) => .lbrace :: .tstr k :: .colon :: (ser_val v ++ ser_fields fs)

/-- Tokens of the remaining array elements (each preceded by a comma). -/
def ser_items : List Json → List JTok
  | [] => [.rbrack]
  | x :: xs => .comma :: (ser_val x ++ ser_items xs)

/-- Tokens of the remaining object members (each preceded by a comma). -/
def ser_fields : List (String × Json) → List JTok
  | [] => [.rbrace]
  | (k, v) :: fs => .comma :: .tstr k :: .colon :: (ser_val v ++ ser_fields fs)

end

mutual

/-- Fuelled recursive-descent JSON parser over the token stream. -/
def parse_val : Nat → List JTok → Option (Json × List JTok)
  | 0, _ => none
  | _ + 1, .tnull :: ts => some (.null, ts)
  | _ + 1, .tbool b :: ts => some (.bool b, ts)
  | _ + 1, .tnum q :: ts => some (.num q, ts)
  | _ + 1, .tstr s :: ts => some (.str s, ts)
  | _ + 1, .lbrack :: .rbrack :: ts => some (.arr [], ts)
  | n + 1, .lbrack :: ts =>
    match parse_val n ts with
    | some (x, ts1) =>
      match parse_items n ts1 with
      | some (xs, ts2) => some (.arr (x :: xs), ts2)
      | none => none
    | none => none
  | _ + 1, .lbrace :: .rbrace :: ts => some (.obj [], ts)
  | n + 1, .lbrace :: .tstr k :: .colon :: ts =>
    match parse_val n ts with
    | some (v, ts1) =>
      match parse_fields n ts1 with
      | some (fs, ts2) => some (.obj ((k, v) :: fs), ts2)
      | none => none
    | none => none
  | _ + 1, _ => none

/-- Parser for the remaining array elements. -/
def parse_items : Nat → List JTok → Option (List Json × List JTok)
  | 0, _ => none
  | _ + 1, .rbrack :: ts => some ([], ts)
  | n + 1, .comma :: ts =>
    match parse_val n ts with
    | some (x, ts1) =>
      match parse_items n ts1 with
      | some (xs, ts2) => some (x :: xs, ts2)
      | none => none
    | none => none
  | _ + 1, _ => none

/-- Parser for the remaining object members. -/
def parse_fields : Nat → List JTok → Option (List (String × Json) × List JTok)
  | 0, _ => none
  | _ + 1, .rbrace :: ts => some ([], ts)
  | n + 1, .comma :: .tstr k :: .colon :: ts =>
    match parse_val n ts with
    | some (v, ts1) =>
      match parse_fields n ts1 with
      | some (fs, ts2) => some ((k, v) :: fs, ts2)
      | none => none
    | none => none
  | _ + 1, _ => none

end

/-- Parse a whole document: succeeds only with no trailing tokens, as
`json.load` requires. -/
def parse_doc (ts : List JTok) : Option Json :=
  match parse_val ts.length ts with
  | some (d, []) => some d
  | _ => none

/-! ### BaseJsonStore: generic JSON file store (jsonfile_manager.py)

The backing file either does not exist or holds a token stream.  `load`
recovers from `FileNotFoundError` and `json.JSONDecodeError` by calling
`_init_file`, which resets the file to the default content and returns a copy
of that default.  `save` always succeeds in this model (its `False` branch
covers unexpected I/O failures outside the embedded state).
-/
inductive JFile where
  | absent
  | stored (ts : List JTok)

/-- Model of `BaseJsonStore.save`: writes the serialized document. -/
def store_save (_f : JFile) (d : Json) : JFile × Bool :=
  (.stored (ser_val d), true)

/-- Model of `BaseJsonStore.reset`: saves the store's default content. -/
def store_reset (dflt : Json) (f : JFile) : JFile × Bool :=
  store_save f dflt

/-- Model of `BaseJsonStore._init_file`: resets the file, then returns the
default content. -/
def init_file (dflt : Json) (f : JFile) : Json × JFile :=
  (dflt, (store_reset dflt f).1)

/-- Model of `BaseJsonStore.load`: parses the stored document; on a missing
file or a parse failure, falls back to `_init_file`. -/
def store_load (dflt : Json) (f : JFile) : Json × JFile :=
  match f with
  | .absent => init_file dflt f
  | .stored ts =>
    match parse_doc ts with
    | some d => (d, f)
    | none => init_file dflt f

/-- `FileConfigStore.get_default_content`. -/
def config_default_content : Json :=
  .obj [("users", .obj []), ("generalTasks", .arr []), ("personalTasks", .arr []),
        ("messages", .arr [])]

/-- `FileStateStore.get_default_content`: a hardcoded demo structure; it does
not consult the configuration. -/
def state_default_content : Json :=
  .obj [
    ("Milou", .obj [
      ("config", .obj [("tasksPerWeek", .num 9), ("allowance", .num 3),
                       ("reward", .num (1 / 5))]),
      ("choreList", .arr [
        .obj [("name", .str "Take out trash"), ("date", .str "2025-12-10")],
        .obj [("name", .str "Wash dishes"), ("date", .str "2025-12-11")]])]),
    ("Luca", .obj [
      ("config", .obj [("tasksPerWeek", .num 6), ("allowance", .num 1),
                       ("reward", .num (1 / 10))]),
      ("choreList", .arr [
        .obj [("name", .str "Clean room"), ("date", .str "2025-12-10")],
        .obj [("name", .str "Do homework"), ("date", .str "2025-12-11")]])])]

/-! ### CosmosStateStore (cosmosdb_manager.py)

The backing container holds at most one item per partition; we model the
item stored under the store's `doc_id`.  `save` wraps the data in
`{"id": "state", "userId": uid, "data": data}` and upserts it; `load` reads
the item and projects `item.get('data', {})`, resetting when it is absent.
-/
/-- Python `item.get(k, dflt)` on a JSON object. -/
def jget (j : Json) (k : String) (dflt : Json) : Json :=
  match j with
  | .obj fs => (alookup fs k).getD dflt
  | _ => dflt

/-- The upserted state item `{"id": "state", "userId": uid, "data": data}`. -/
def wrap_state_item (uid : String) (data : Json) : Json :=
  .obj [("id", .str "state"), ("userId", .str uid), ("data", data)]

/-- `CosmosStateStore.save`. -/
def cosmos_state_save (_st : Option Json) (uid : String) (data : Json) :
    Option Json × Bool :=
  (some (wrap_state_item uid data), true)

/-- The hardcoded state written by `CosmosStateStore.reset`; despite its
docstring it does not consult the app configuration. -/
def cosmos_default_state : Json :=
  .obj [("Milou", .obj [("choreList", .arr [])]),
        ("Luca", .obj [("choreList", .arr [])])]

/-- `CosmosStateStore.reset`: saves and returns the hardcoded default state. -/
def cosmos_state_reset (st : Option Json) (uid : String) : Json × Option Json :=
  (cosmos_default_state, (cosmos_state_save st uid cosmos_default_state).1)

/-- `CosmosStateStore.load`: reads the item and returns its `data` field;
on `CosmosResourceNotFoundError` falls back to `reset`. -/
def cosmos_state_load (st : Option Json) (uid : String) : Json × Option Json :=
  match st with
  | some item => (jget item "data" (.obj []), st)
  | none => cosmos_state_reset st uid

/-! ### Allowance data model

Account and transaction documents.  The `type` field of a transaction is
named `txType` here (`type` clashes with Lean's universe keyword); numeric
settings values are rationals.
-/
/-- Settings sub-map of an account (numeric-valued JSON object). -/
abbrev Settings := List (String × ℚ)

/-- Account document of `CosmosAllowanceRepository._default_account`. -/
structure CosmosAccount where
  id : String
  entityType : String
  userId : String
  currentBalance : ℚ
  currency : String
  settings : Settings
  lastUpdated : Option Nat
  version : Int
deriving DecidableEq

/-- Transaction document.  The unique id string `"tx_<user>_<uuid4>"` is
modelled by the serial `id` drawn from the monotone clock. -/
structure Transaction where
  id : Nat
  entityType : String
  userId : String
  timestamp : Nat
  amount : ℚ
  direction : String
  txType : String
  description : Option String
  balanceAfter : ℚ
deriving DecidableEq

/-! ### CosmosAllowanceRepository (cosmosdb_manager.py)

The `allowance-ledger` container: account documents keyed by user, plus all
transaction documents; `clock` is the wall-clock/uuid counter.
-/
/-- State of the allowance-ledger container. -/
structure Container where
  accounts : List (String × CosmosAccount)
  txs : List Transaction
  clock : Nat
deriving DecidableEq

/-- `CosmosAllowanceRepository._default_account`. -/
def default_account (user_id : String) : CosmosAccount :=
  { id := "account_" ++ user_id
    entityType := "account"
    userId := user_id
    currentBalance := 0
    currency := "EUR"
    settings := [("weeklyAllowance", 2), ("tasksPerWeek", 7),
                 ("bonusPerExtraTask", 1 / 2), ("maximumExtraTasks", 4)]
    lastUpdated := none
    version := 1 }

/-- `CosmosAllowanceRepository._get_or_create_account`: reads the account
document, upserting the default when it is absent. -/
def get_or_create_account (c : Container) (u : String) : Container × CosmosAccount :=
  match alookup c.accounts u with
  | some a => (c, a)
  | none =>
    let a := default_account u
    ({ c with accounts := dict_set c.accounts u a }, a)

/-- Transactions of the user's partition
(`WHERE c.entityType = 'transaction' AND c.userId = @userId`). -/
def user_txs (c : Container) (u : String) : List Transaction :=
  c.txs.filter (fun t => t.userId = u)

/-- `CosmosAllowanceRepository.add_transaction`: writes the transaction
document, then the updated account. -/
def add_transaction (c : Container) (u : String) (amount : ℚ) (tx_type : String)
    (description : Option String) : Container × CosmosAccount × Transaction :=
  let s0 := get_or_create_account c u
  let c0 := s0.1
  let account := s0.2
  let old_balance := account.currentBalance
  let new_balance := old_balance + amount
  let now := c0.clock
  let tx : Transaction :=
    { id := c0.clock, entityType := "transaction", userId := u, timestamp := now,
      amount := amount, direction := if 0 ≤ amount then "credit" else "debit",
      txType := tx_type, description := description, balanceAfter := new_balance }
  let account1 :=
    { account with
      currentBalance := new_balance
      lastUpdated := some now
      version := account.version + 1 }
  let c1 :=
    { c0 with
      txs := c0.txs ++ [tx]
      accounts := dict_set c0.accounts u account1
      clock := c0.clock + 1 }
  (c1, account1, tx)

/-- `CosmosAllowanceRepository.update_settings` (merge by default, full
replacement with `replace=True`); bumps `version` and `lastUpdated`. -/
def update_settings (c : Container) (u : String) (new_settings : Settings)
    (replace : Bool) : Container × CosmosAccount :=
  let s0 := get_or_create_account c u
  let c0 := s0.1
  let account := s0.2
  let settings1 := if replace then new_settings
                   else dict_update account.settings new_settings
  let account1 :=
    { account with
      settings := settings1
      lastUpdated := some c0.clock
      version := account.version + 1 }
  ({ c0 with accounts := dict_set c0.accounts u account1, clock := c0.clock + 1 },
   account1)

/-- First transaction of `TOP 1 ... ORDER BY c.timestamp DESC`: the element
with the maximal timestamp (first such on ties). -/
def latest_tx : List Transaction → Option Transaction
  | [] => none
  | t :: rest =>
    match latest_tx rest with
    | none => some t
    | some m => if m.timestamp > t.timestamp then some m else some t

/-- Result set of the `TOP 1` query as a list. -/
def query_top1_desc (l : List Transaction) : List Transaction :=
  match latest_tx l with
  | none => []
  | some t => [t]

/-- Python truthiness of an `azure.core.paging.ItemPaged` query iterator: the
class defines neither a bool conversion nor a length, so the object is truthy
even when the result set is empty. -/
def py_truthy_iterator (_results : List Transaction) : Bool :=
  true

/-- `CosmosAllowanceRepository.delete_last_transaction`.  The guard
`if not transactions` tests the truthiness of the query iterator, which is
constantly true, so the guard's branch is dead; on an empty result set the
subsequent `transactions.next()` raises `StopIteration`.  On the non-empty
path the account is rewritten with the lowered balance and a fresh
`lastUpdated` (the `version` field is left unchanged), and the transaction
document is deleted by id. -/
def delete_last_transaction (c : Container) (u : String) :
    Container × Except String (CosmosAccount × Option Transaction) :=
  let s0 := get_or_create_account c u
  let c0 := s0.1
  let account := s0.2
  let results := query_top1_desc (user_txs c0 u)
  if py_truthy_iterator results = false then
    (c0, .ok (account, none))
  else
    match results with
    | [] => (c0, .error "StopIteration")
    | t :: _ =>
      let new_balance := account.currentBalance - t.amount
      let account1 :=
        { account with
          currentBalance := new_balance
          lastUpdated := some c0.clock }
      let c1 :=
        { c0 with
          accounts := dict_set c0.accounts u account1
          txs := c0.txs.filter (fun s => s.id ≠ t.id)
          clock := c0.clock + 1 }
      (c1, .ok (account1, some t))

/-! ### FileAllowanceRepository (jsonfile_manager.py)

Operates on the decoded content of `allowance_state.json`: a mapping from
user to `{account, transactions}`.  Note it implements no
`delete_last_transaction`, and its `update_settings` has no `replace`
parameter.  `now` stands for `datetime.now(timezone.utc)` and also feeds the
transaction id, like `uuid4`.
-/
/-- Account documents of `FileAllowanceStore.get_default_content` (their
`id` is initially null). -/
structure FileAccount where
  id : Option String
  entityType : String
  currentBalance : ℚ
  currency : String
  settings : Settings
  lastUpdated : Option Nat
  version : Int
deriving DecidableEq

/-- Per-user record `{account, transactions}` in the allowance file. -/
structure UserEntry where
  account : FileAccount
  transactions : List Transaction
deriving DecidableEq

/-- Decoded content of the allowance file. -/
abbrev AllowanceData := List (String × UserEntry)

/-- The `default_account()` literal of `FileAllowanceStore`. -/
def default_file_account : FileAccount :=
  { id := none, entityType := "account", currentBalance := 0, currency := "EUR",
    settings := [("weeklyAllowance", 0), ("autoPayDayOfWeek", 5)],
    lastUpdated := none, version := 1 }

/-- A fresh `{account, transactions}` record; the template entries for Milou
and Luca and the literal used for other users are this same value. -/
def default_user_entry : UserEntry :=
  { account := default_file_account, transactions := [] }

/-- `FileAllowanceStore.get_default_content`. -/
def allowance_default_content : AllowanceData :=
  [("Milou", default_user_entry), ("Luca", default_user_entry)]

/-- `FileAllowanceRepository._ensure_user`: adds a default record when the
user is missing, then fills in `account.id` when it is null. -/
def ensure_user (data : AllowanceData) (u : String) : AllowanceData :=
  let data1 := if (alookup data u).isSome then data
               else dict_set data u default_user_entry
  match alookup data1 u with
  | none => data1
  | some e =>
    if e.account.id = none then
      dict_set data1 u
        { e with account := { e.account with id := some ("account#" ++ u) } }
    else data1

/-- The user's record after `_ensure_user` (present by construction). -/
def get_entry (data : AllowanceData) (u : String) : UserEntry :=
  (alookup data u).getD default_user_entry

/-- `FileAllowanceRepository.add_transaction`. -/
def file_add_transaction (data : AllowanceData) (u : String) (amount : ℚ)
    (tx_type : String) (description : Option String) (now : Nat) :
    AllowanceData × FileAccount × Transaction :=
  let data0 := ensure_user data u
  let e := get_entry data0 u
  let old_balance := e.account.currentBalance
  let new_balance := old_balance + amount
  let tx : Transaction :=
    { id := now, entityType := "transaction", userId := u, timestamp := now,
      amount := amount, direction := if 0 ≤ amount then "credit" else "debit",
      txType := tx_type, description := description, balanceAfter := new_balance }
  let account1 :=
    { e.account with
      currentBalance := new_balance
      lastUpdated := some now
      version := e.account.version + 1 }
  (dict_set data0 u { account := account1, transactions := e.transactions ++ [tx] },
   account1, tx)

/-- `FileAllowanceRepository.update_settings`: merges `new_settings` into the
settings sub-map (there is no replace mode), bumps `version`/`lastUpdated`. -/
def file_update_settings (data : AllowanceData) (u : String)
    (new_settings : Settings) (now : Nat) : AllowanceData × FileAccount :=
  let data0 := ensure_user data u
  let e := get_entry data0 u
  let account1 :=
    { e.account with
      settings := dict_update e.account.settings new_settings
      lastUpdated := some now
      version := e.account.version + 1 }
  (dict_set data0 u { e with account := account1 }, account1)

/-! ### Weekly settlement: the `end_week` route (src/app.py) -/
/-- Python `int(x)` on a rational: truncation toward zero. -/
def py_int (q : ℚ) : Int :=
  if q.num < 0 then -((q.num.natAbs / q.den : Nat) : Int)
  else ((q.num.natAbs / q.den : Nat) : Int)

/-- Python `user_state.get(k, dflt)`: raises `AttributeError` unless the
value is a mapping. -/
def py_dict_get (j : Json) (k : String) (dflt : Json) : Except String Json :=
  match j with
  | .obj fs => .ok ((alookup fs k).getD dflt)
  | _ => .error "AttributeError"

/-- Python `len(x)`: only sequences and strings have a length. -/
def py_len (j : Json) : Except String Nat :=
  match j with
  | .arr xs => .ok xs.length
  | .str s1 => .ok s1.length
  | _ => .error "TypeError"

/-- The local `weekly_allowance = float(account["settings"].get("weeklyAllowance", 0))`. -/
def weekly_allowance_of (acct : CosmosAccount) : ℚ :=
  dict_get acct.settings "weeklyAllowance" 0

/-- The local `bonus_per_extra_task = float(...get("bonusPerExtraTask", 0))`. -/
def bonus_rate_of (acct : CosmosAccount) : ℚ :=
  dict_get acct.settings "bonusPerExtraTask" 0

/-- The local
`extra_tasks_completed = min(max(0, tasks_completed - tasks_per_week), maximum_extra_tasks)`
with `tasks_per_week = int(...get("tasksPerWeek", 1))` and
`maximum_extra_tasks = int(...get("maximumExtraTasks", 0))`. -/
def extra_tasks (acct : CosmosAccount) (tasks_completed : Nat) : Int :=
  min (max 0 ((tasks_completed : Int)
        - py_int (dict_get acct.settings "tasksPerWeek" 1)))
    (py_int (dict_get acct.settings "maximumExtraTasks" 0))

/-- Loop body of `end_week` for one `(user_id, user_state)` item: reads the
account settings, adds the ALLOWANCE transaction, then adds a BONUS
transaction when the number of extra tasks is truthy (nonzero). -/
def end_week_user (c : Container) (user_id : String) (user_state : Json) :
    Container × Except String Unit :=
  let s0 := get_or_create_account c user_id
  let c0 := s0.1
  let account := s0.2
  let c1 := (add_transaction c0 user_id (weekly_allowance_of account)
    "ALLOWANCE" (some "zakgeld")).1
  match py_dict_get user_state "choreList" (.arr []) with
  | .error e => (c1, .error e)
  | .ok chore_list =>
    match py_len chore_list with
    | .error e => (c1, .error e)
    | .ok tasks_completed =>
      if extra_tasks account tasks_completed ≠ 0 then
        ((add_transaction c1 user_id
            ((extra_tasks account tasks_completed : ℚ) * bonus_rate_of account)
            "BONUS" (some "bonus voor extra taakjes")).1, .ok ())
      else (c1, .ok ())

/-- The `end_week` loop over the items of the loaded state; an exception
aborts the remaining users, keeping the writes already performed. -/
def end_week_users (c : Container) :
    List (String × Json) → Container × Except String Unit
  | [] => (c, .ok ())
  | (uid, ust) :: rest =>
    match end_week_user c uid ust with
    | (c1, .ok _) => end_week_users c1 rest
    | (c1, .error e) => (c1, .error e)

/-- `end_week`: loads the state, settles each user, then resets the state
store; the reset is reached only when no user raised. -/
def end_week (c : Container) (st : Option Json) (uid : String) :
    Container × Option Json × Except String Unit :=
  let l0 := cosmos_state_load st uid
  match l0.1 with
  | .obj items =>
    match end_week_users c items with
    | (c1, .ok _) => (c1, (cosmos_state_reset l0.2 uid).2, .ok ())
    | (c1, .error e) => (c1, l0.2, .error e)
  | _ => (c, l0.2, .error "AttributeError")

/-! ### Sequences of ledger operations (for the balance invariant) -/
/-- An allowance-mutating call. -/
inductive LOp where
  | add (amount : ℚ) (tx_type : String) (description : Option String)
  | delete_last

/-- Effect of one call on the container (an exception inside
`delete_last_transaction` leaves the state reached before the raise). -/
def run_op (u : String) (c : Container) : LOp → Container
  | .add a ty d => (add_transaction c u a ty d).1
  | .delete_last => (delete_last_transaction c u).1

/-- Effect of a sequence of calls. -/
def run_ops (u : String) (c : Container) : List LOp → Container
  | [] => c
  | op :: rest => run_ops u (run_op u c op) rest

/-- A fresh container: just the user's zero-balance default account. -/
def fresh_container (u : String) : Container :=
  { accounts := [(u, default_account u)], txs := [], clock := 0 }

/-- Sum of the `amount` fields of a list of transactions. -/
def tx_sum (l : List Transaction) : ℚ :=
  (l.map Transaction.amount).sum

/-- Balance of the stored account document (0 when absent). -/
def account_balance (c : Container) (u : String) : ℚ :=
  ((alookup c.accounts u).map CosmosAccount.currentBalance).getD 0

/-- Version of the stored account document (0 when absent). -/
def account_version (c : Container) (u : String) : Int :=
  ((alookup c.accounts u).map CosmosAccount.version).getD 0

/-- Length of a boolean sequence, `none` for any other JSON value; used for
stating what a per-user state entry is not. -/
def bool_seq_length (j : Json) : Option Nat :=
  match j with
  | .arr xs =>
    if xs.all (fun x => match x with | .bool _ => true | _ => false) then
      some xs.length
    else none
  | _ => none

/-- Ledger well-formedness: the user's account document exists and its
balance is the sum of the user's stored transaction amounts; all transaction
ids and timestamps are below the clock; transaction ids are distinct. -/
structure LedgerInv (c : Container) (u : String) : Prop where
  account_ok : ∃ a, alookup c.accounts u = some a ∧
    a.currentBalance = tx_sum (user_txs c u)
  bounded : ∀ t ∈ c.txs, t.id < c.clock ∧ t.timestamp < c.clock
  distinct : c.txs.Pairwise (fun t1 t2 => t1.id ≠ t2.id)

/-- Ledger container for the C8 counterexample: a stored account whose
`maximumExtraTasks` setting is -1. -/
def c8_neg_container : Container :=
  { accounts := [("A", { default_account "A" with
      settings := [("weeklyAllowance", 2), ("tasksPerWeek", 1),
                   ("bonusPerExtraTask", mkRat 1 2), ("maximumExtraTasks", -1)] })]
    txs := []
    clock := 0 }

/-- A state entry with five completed chores. -/
def c8_neg_state : Json :=
  .obj [("choreList", .arr [.str "t1", .str "t2", .str "t3", .str "t4", .str "t5"])]

/-- Ledger container for the C8 witness: the spec's example settings
(`tasksPerWeek = 1`, `maximumExtraTasks = 2`, `bonusPerExtraTask = 0.5`,
weekly allowance 2). -/
def c8_pos_container : Container :=
  { accounts := [("A", { default_account "A" with
      settings := [("weeklyAllowance", 2), ("tasksPerWeek", 1),
                   ("bonusPerExtraTask", mkRat 1 2), ("maximumExtraTasks", 2)] })]
    txs := []
    clock := 0 }

/-- A state entry with three completed chores. -/
def c8_pos_state : Json :=
  .obj [("choreList", .arr [.str "t1", .str "t2", .str "t3"])]

theorem alookup_dict_set_ne {α : Type} (m : List (String × α)) (k : String) (v : α)
    (k' : String) (h : k' ≠ k) : alookup (dict_set m k v) k' = alookup m k' := by
  induction m with
  | nil => simp [dict_set, alookup, h]
  | cons p rest ih =>
    obtain ⟨a, b⟩ := p
    by_cases hak : a = k
    · subst hak
      simp [dict_set, alookup, h]
    · simp [dict_set, hak, alookup, ih]

theorem alookup_dict_set_self {α : Type} (m : List (String × α)) (k : String) (v : α) :
    alookup (dict_set m k v) k = some v := by
  induction m with
  | nil => simp [dict_set, alookup]
  | cons p rest ih =>
    obtain ⟨a, b⟩ := p
    by_cases hak : a = k
    · subst hak
      simp [dict_set, alookup]
    · have hka : k ≠ a := fun hh => hak hh.symm
      simp [dict_set, hak, alookup, hka, ih]

theorem alookup_dict_update_not_mem {α : Type} (m new : List (String × α)) (k : String)
    (h : k ∉ new.map Prod.fst) : alookup (dict_update m new) k = alookup m k := by
  induction new generalizing m with
  | nil => rfl
  | cons p rest ih =>
    obtain ⟨a, b⟩ := p
    simp only [List.map_cons, List.mem_cons] at h
    push_neg at h
    simpa [dict_update] using
      (ih (dict_set m a b) h.2).trans (alookup_dict_set_ne m a b k h.1)

theorem alookup_dict_update_mem {α : Type} (m new : List (String × α)) (k : String) (v : α)
    (hnd : (new.map Prod.fst).Nodup) (hmem : alookup new k = some v) :
    alookup (dict_update m new) k = some v := by
  induction new generalizing m with
  | nil => simp [alookup] at hmem
  | cons p rest ih =>
    obtain ⟨a, b⟩ := p
    simp only [List.map_cons, List.nodup_cons] at hnd
    by_cases hka : k = a
    · subst hka
      have hb : b = v := by simpa [alookup] using hmem
      subst hb
      have hnotin : k ∉ rest.map Prod.fst := hnd.1
      calc alookup (dict_update m ((k, b) :: rest)) k
          = alookup (dict_update (dict_set m k b) rest) k := by simp [dict_update]
        _ = alookup (dict_set m k b) k := alookup_dict_update_not_mem _ _ _ hnotin
        _ = some b := alookup_dict_set_self m k b
    · simp only [alookup, if_neg hka] at hmem
      simpa [dict_update] using ih (dict_set m a b) hnd.2 hmem

theorem alookup_eq_none_of_not_mem {α : Type} (m : List (String × α)) (k : String)
    (h : k ∉ m.map Prod.fst) : alookup m k = none := by
  induction m with
  | nil => rfl
  | cons p rest ih =>
    obtain ⟨a, b⟩ := p
    simp only [List.map_cons, List.mem_cons] at h
    push_neg at h
    simp [alookup, h.1, ih h.2]

theorem ser_val_length_pos (d : Json) : 0 < (ser_val d).length := by
  cases d with
  | arr xs => cases xs <;> simp [ser_val]
  | obj fs =>
    cases fs with
    | nil => simp [ser_val]
    | cons p fs => obtain ⟨k, v⟩ := p; simp [ser_val]
  | _ => simp [ser_val]

theorem ser_items_length_pos (xs : List Json) : 0 < (ser_items xs).length := by
  cases xs <;> simp [ser_items]

theorem ser_fields_length_pos (fs : List (String × Json)) : 0 < (ser_fields fs).length := by
  cases fs with
  | nil => simp [ser_fields]
  | cons p fs => obtain ⟨k, v⟩ := p; simp [ser_fields]

/-- Every serialized value starts with a token other than a closing bracket. -/
theorem ser_val_head (d : Json) :
    ∃ t ts, ser_val d = t :: ts ∧ t ≠ JTok.rbrack := by
  cases d with
  | null => exact ⟨_, _, rfl, fun h => nomatch h⟩
  | bool b => exact ⟨_, _, rfl, fun h => nomatch h⟩
  | num q => exact ⟨_, _, rfl, fun h => nomatch h⟩
  | str s => exact ⟨_, _, rfl, fun h => nomatch h⟩
  | arr xs =>
    cases xs with
    | nil => exact ⟨_, _, rfl, fun h => nomatch h⟩
    | cons x xs => exact ⟨_, _, rfl, fun h => nomatch h⟩
  | obj fs =>
    cases fs with
    | nil => exact ⟨_, _, rfl, fun h => nomatch h⟩
    | cons p fs => obtain ⟨k, v⟩ := p; exact ⟨_, _, rfl, fun h => nomatch h⟩

theorem parse_val_lbrack (n : Nat) (t : JTok) (ht : t ≠ JTok.rbrack) (ts : List JTok) :
    parse_val (n + 1) (.lbrack :: t :: ts) =
      match parse_val n (t :: ts) with
      | some (x, ts1) =>
        match parse_items n ts1 with
        | some (xs, ts2) => some (.arr (x :: xs), ts2)
        | none => none
      | none => none := by
  cases t with
  | rbrack => exact absurd rfl ht
  | _ => rfl

theorem parse_val_obj_cons (n : Nat) (k : String) (ts : List JTok) :
    parse_val (n + 1) (.lbrace :: .tstr k :: .colon :: ts) =
      match parse_val n ts with
      | some (v, ts1) =>
        match parse_fields n ts1 with
        | some (fs, ts2) => some (.obj ((k, v) :: fs), ts2)
        | none => none
      | none => none := rfl

theorem parse_items_comma (n : Nat) (ts : List JTok) :
    parse_items (n + 1) (.comma :: ts) =
      match parse_val n ts with
      | some (x, ts1) =>
        match parse_items n ts1 with
        | some (xs, ts2) => some (x :: xs, ts2)
        | none => none
      | none => none := rfl

theorem parse_fields_comma (n : Nat) (k : String) (ts : List JTok) :
    parse_fields (n + 1) (.comma :: .tstr k :: .colon :: ts) =
      match parse_val n ts with
      | some (v, ts1) =>
        match parse_fields n ts1 with
        | some (fs, ts2) => some ((k, v) :: fs, ts2)
        | none => none
      | none => none := rfl

/-- Key codec fact: parsing a serialized value (with any fuel covering its
token count) consumes exactly its tokens and returns the value. -/
theorem parse_ser (n : Nat) :
    (∀ (d : Json) (rest : List JTok), (ser_val d).length ≤ n →
        parse_val n (ser_val d ++ rest) = some (d, rest)) ∧
    (∀ (xs : List Json) (rest : List JTok), (ser_items xs).length ≤ n →
        parse_items n (ser_items xs ++ rest) = some (xs, rest)) ∧
    (∀ (fs : List (String × Json)) (rest : List JTok), (ser_fields fs).length ≤ n →
        parse_fields n (ser_fields fs ++ rest) = some (fs, rest)) := by
  induction n with
  | zero =>
    refine ⟨fun d rest h => ?_, fun xs rest h => ?_, fun fs rest h => ?_⟩
    · exact absurd h (by simpa using (ser_val_length_pos d).ne')
    · exact absurd h (by simpa using (ser_items_length_pos xs).ne')
    · exact absurd h (by simpa using (ser_fields_length_pos fs).ne')
  | succ n ih =>
    obtain ⟨ihV, ihI, ihF⟩ := ih
    refine ⟨fun d rest h => ?_, fun xs rest h => ?_, fun fs rest h => ?_⟩
    · cases d with
      | null => simp [ser_val, parse_val]
      | bool b => simp [ser_val, parse_val]
      | num q => simp [ser_val, parse_val]
      | str s => simp [ser_val, parse_val]
      | arr xs =>
        cases xs with
        | nil => simp [ser_val, parse_val]
        | cons x xs =>
          simp only [ser_val, List.length_cons, List.length_append] at h
          have hx : (ser_val x).length ≤ n := by
            have := ser_items_length_pos xs; omega
          have hxs : (ser_items xs).length ≤ n := by
            have := ser_val_length_pos x; omega
          obtain ⟨t, ts0, hhead, hne⟩ := ser_val_head x
          have hv := ihV x (ser_items xs ++ rest) hx
          have hi := ihI xs rest hxs
          have hshape : ser_val (.arr (x :: xs)) ++ rest
              = .lbrack :: (t :: (ts0 ++ (ser_items xs ++ rest))) := by
            simp [ser_val, hhead]
          have hback : (t :: (ts0 ++ (ser_items xs ++ rest)))
              = ser_val x ++ (ser_items xs ++ rest) := by simp [hhead]
          rw [hshape, parse_val_lbrack n t hne, hback, hv]
          simp [hi]
      | obj fs =>
        cases fs with
        | nil => simp [ser_val, parse_val]
        | cons p fs =>
          obtain ⟨k, v⟩ := p
          simp only [ser_val, List.length_cons, List.length_append] at h
          have hv : (ser_val v).length ≤ n := by
            have := ser_fields_length_pos fs; omega
          have hfs : (ser_fields fs).length ≤ n := by
            have := ser_val_length_pos v; omega
          have h1 := ihV v (ser_fields fs ++ rest) hv
          have h2 := ihF fs rest hfs
          have hshape : ser_val (.obj ((k, v) :: fs)) ++ rest
              = .lbrace :: .tstr k :: .colon :: (ser_val v ++ (ser_fields fs ++ rest)) := by
            simp [ser_val]
          rw [hshape, parse_val_obj_cons, h1]
          simp [h2]
    · cases xs with
      | nil => simp [ser_items, parse_items]
      | cons x xs =>
        simp only [ser_items, List.length_cons, List.length_append] at h
        have hx : (ser_val x).length ≤ n := by
          have := ser_items_length_pos xs; omega
        have hxs : (ser_items xs).length ≤ n := by
          have := ser_val_length_pos x; omega
        have h1 := ihV x (ser_items xs ++ rest) hx
        have h2 := ihI xs rest hxs
        have hshape : ser_items (x :: xs) ++ rest
            = .comma :: (ser_val x ++ (ser_items xs ++ rest)) := by
          simp [ser_items]
        rw [hshape, parse_items_comma, h1]
        simp [h2]
    · cases fs with
      | nil => simp [ser_fields, parse_fields]
      | cons p fs =>
        obtain ⟨k, v⟩ := p
        simp only [ser_fields, List.length_cons, List.length_append] at h
        have hv : (ser_val v).length ≤ n := by
          have := ser_fields_length_pos fs; omega
        have hfs : (ser_fields fs).length ≤ n := by
          have := ser_val_length_pos v; omega
        have h1 := ihV v (ser_fields fs ++ rest) hv
        have h2 := ihF fs rest hfs
        have hshape : ser_fields ((k, v) :: fs) ++ rest
            = .comma :: .tstr k :: .colon :: (ser_val v ++ (ser_fields fs ++ rest)) := by
          simp [ser_fields]
        rw [hshape, parse_fields_comma, h1]
        simp [h2]

theorem parse_doc_ser (d : Json) : parse_doc (ser_val d) = some d := by
  have h := (parse_ser (ser_val d).length).1 d [] le_rfl
  simp only [List.append_nil] at h
  simp [parse_doc, h]

/-! ### Ledger lemmas -/
theorem tx_sum_nil : tx_sum [] = 0 := rfl

theorem tx_sum_cons (t : Transaction) (l : List Transaction) :
    tx_sum (t :: l) = t.amount + tx_sum l := by
  simp [tx_sum]

theorem tx_sum_append (l1 l2 : List Transaction) :
    tx_sum (l1 ++ l2) = tx_sum l1 + tx_sum l2 := by
  simp [tx_sum]

theorem tx_sum_filter_ne_id (l : List Transaction) (t : Transaction)
    (hmem : t ∈ l) (hpw : l.Pairwise (fun t1 t2 => t1.id ≠ t2.id)) :
    tx_sum (l.filter (fun s => s.id ≠ t.id)) = tx_sum l - t.amount := by
  induction l with
  | nil => cases hmem
  | cons x rest ih =>
    have hpw1 := List.pairwise_cons.mp hpw
    rcases List.mem_cons.mp hmem with hx | hx
    · subst hx
      have hall : List.filter (fun s => decide (s.id ≠ t.id)) rest = rest :=
        List.filter_eq_self.mpr (fun s hs => by simpa using (hpw1.1 s hs).symm)
      have hstep : List.filter (fun s => decide (s.id ≠ t.id)) (t :: rest)
          = List.filter (fun s => decide (s.id ≠ t.id)) rest := by
        rw [List.filter_cons]
        simp
      rw [hstep, hall, tx_sum_cons]
      ring
    · have hxt : x.id ≠ t.id := hpw1.1 t hx
      have hstep : List.filter (fun s => decide (s.id ≠ t.id)) (x :: rest)
          = x :: List.filter (fun s => decide (s.id ≠ t.id)) rest := by
        rw [List.filter_cons]
        simp [hxt]
      rw [hstep, tx_sum_cons, tx_sum_cons, ih hx hpw1.2]
      ring

theorem latest_tx_cons_none {x : Transaction} {rest : List Transaction}
    (h : latest_tx rest = none) : latest_tx (x :: rest) = some x := by
  simp [latest_tx, h]

theorem latest_tx_cons_gt {x m : Transaction} {rest : List Transaction}
    (h : latest_tx rest = some m) (hc : m.timestamp > x.timestamp) :
    latest_tx (x :: rest) = some m := by
  simp [latest_tx, h, hc]

theorem latest_tx_cons_le {x m : Transaction} {rest : List Transaction}
    (h : latest_tx rest = some m) (hc : ¬m.timestamp > x.timestamp) :
    latest_tx (x :: rest) = some x := by
  simp only [latest_tx, h]
  simp [show ¬x.timestamp < m.timestamp from hc]

theorem latest_tx_mem {l : List Transaction} {t : Transaction}
    (h : latest_tx l = some t) : t ∈ l := by
  induction l generalizing t with
  | nil => simp [latest_tx] at h
  | cons x rest ih =>
    cases hrest : latest_tx rest with
    | none =>
      have hx := (latest_tx_cons_none (x := x) hrest).symm.trans h
      simp only [Option.some.injEq] at hx
      exact hx ▸ List.mem_cons_self x rest
    | some m =>
      by_cases hc : m.timestamp > x.timestamp
      · have hx := (latest_tx_cons_gt hrest hc).symm.trans h
        simp only [Option.some.injEq] at hx
        exact List.mem_cons_of_mem x (ih (hx ▸ hrest))
      · have hx := (latest_tx_cons_le hrest hc).symm.trans h
        simp only [Option.some.injEq] at hx
        exact hx ▸ List.mem_cons_self x rest

theorem latest_tx_eq_none_iff (l : List Transaction) :
    latest_tx l = none ↔ l = [] := by
  cases l with
  | nil => simp [latest_tx]
  | cons x rest =>
    cases hrest : latest_tx rest with
    | none => simp [latest_tx_cons_none hrest]
    | some m =>
      by_cases hc : m.timestamp > x.timestamp
      · simp [latest_tx_cons_gt hrest hc]
      · simp [latest_tx_cons_le hrest hc]

theorem latest_tx_ge {l : List Transaction} {t : Transaction}
    (h : latest_tx l = some t) : ∀ s ∈ l, s.timestamp ≤ t.timestamp := by
  induction l generalizing t with
  | nil => simp [latest_tx] at h
  | cons x rest ih =>
    intro s hs
    cases hrest : latest_tx rest with
    | none =>
      have hx := (latest_tx_cons_none (x := x) hrest).symm.trans h
      simp only [Option.some.injEq] at hx
      subst hx
      rcases List.mem_cons.mp hs with hsx | hsr
      · exact hsx ▸ le_rfl
      · exact absurd ((latest_tx_eq_none_iff rest).mp hrest ▸ hsr) (List.not_mem_nil s)
    | some m =>
      by_cases hc : m.timestamp > x.timestamp
      · have hx := (latest_tx_cons_gt hrest hc).symm.trans h
        simp only [Option.some.injEq] at hx
        subst hx
        rcases List.mem_cons.mp hs with hsx | hsr
        · exact hsx ▸ le_of_lt hc
        · exact ih hrest s hsr
      · have hx := (latest_tx_cons_le hrest hc).symm.trans h
        simp only [Option.some.injEq] at hx
        subst hx
        rcases List.mem_cons.mp hs with hsx | hsr
        · exact hsx ▸ le_rfl
        · exact le_trans (ih hrest s hsr) (le_of_not_lt hc)

theorem latest_tx_append_gt (l : List Transaction) (t : Transaction)
    (hgt : ∀ s ∈ l, s.timestamp < t.timestamp) : latest_tx (l ++ [t]) = some t := by
  induction l with
  | nil => simp [latest_tx]
  | cons x rest ih =>
    have ih1 := ih (fun s hs => hgt s (List.mem_cons_of_mem _ hs))
    have hx : t.timestamp > x.timestamp := hgt x (List.mem_cons_self _ _)
    exact (List.cons_append x rest [t]) ▸ latest_tx_cons_gt ih1 hx

theorem get_or_create_eq_of_some {c : Container} {u : String} {a : CosmosAccount}
    (h : alookup c.accounts u = some a) : get_or_create_account c u = (c, a) := by
  simp [get_or_create_account, h]

theorem get_or_create_txs (c : Container) (u : String) :
    (get_or_create_account c u).1.txs = c.txs := by
  unfold get_or_create_account
  cases alookup c.accounts u <;> rfl

theorem get_or_create_clock (c : Container) (u : String) :
    (get_or_create_account c u).1.clock = c.clock := by
  unfold get_or_create_account
  cases alookup c.accounts u <;> rfl

theorem get_or_create_acct (c : Container) (u : String) :
    alookup (get_or_create_account c u).1.accounts u
      = some (get_or_create_account c u).2 := by
  unfold get_or_create_account
  cases h : alookup c.accounts u with
  | some a => simpa using h
  | none => simpa using alookup_dict_set_self c.accounts u (default_account u)

theorem user_txs_of_txs_eq {c1 c2 : Container} (u : String)
    (h : c1.txs = c2.txs) : user_txs c1 u = user_txs c2 u := by
  simp [user_txs, h]

theorem user_txs_add_transaction (c : Container) (u : String) (a : ℚ)
    (ty : String) (d : Option String) :
    user_txs (add_transaction c u a ty d).1 u
      = user_txs c u ++ [(add_transaction c u a ty d).2.2] := by
  unfold add_transaction
  simp only [user_txs, List.filter_append]
  rw [get_or_create_txs]
  simp

theorem add_transaction_txs (c : Container) (u : String) (a : ℚ) (ty : String)
    (d : Option String) :
    (add_transaction c u a ty d).1.txs
      = c.txs ++ [(add_transaction c u a ty d).2.2] := by
  have h : (add_transaction c u a ty d).1.txs
      = (get_or_create_account c u).1.txs ++ [(add_transaction c u a ty d).2.2] := rfl
  rw [h, get_or_create_txs]

theorem add_transaction_clock (c : Container) (u : String) (a : ℚ) (ty : String)
    (d : Option String) :
    (add_transaction c u a ty d).1.clock = c.clock + 1 := by
  have h : (add_transaction c u a ty d).1.clock
      = (get_or_create_account c u).1.clock + 1 := rfl
  rw [h, get_or_create_clock]

theorem add_transaction_acct_lookup (c : Container) (u : String) (a : ℚ) (ty : String)
    (d : Option String) :
    alookup (add_transaction c u a ty d).1.accounts u
      = some (add_transaction c u a ty d).2.1 := by
  have h : (add_transaction c u a ty d).1.accounts
      = dict_set (get_or_create_account c u).1.accounts u
          (add_transaction c u a ty d).2.1 := rfl
  rw [h]
  exact alookup_dict_set_self _ _ _

theorem add_transaction_acct (c : Container) (u : String) (a : ℚ) (ty : String)
    (d : Option String) :
    (add_transaction c u a ty d).2.1
      = { (get_or_create_account c u).2 with
          currentBalance := (get_or_create_account c u).2.currentBalance + a
          lastUpdated := some (get_or_create_account c u).1.clock
          version := (get_or_create_account c u).2.version + 1 } := rfl

theorem add_transaction_tx (c : Container) (u : String) (a : ℚ) (ty : String)
    (d : Option String) :
    (add_transaction c u a ty d).2.2
      = { id := (get_or_create_account c u).1.clock
          entityType := "transaction"
          userId := u
          timestamp := (get_or_create_account c u).1.clock
          amount := a
          direction := if 0 ≤ a then "credit" else "debit"
          txType := ty
          description := d
          balanceAfter := (get_or_create_account c u).2.currentBalance + a } := rfl

theorem delete_last_empty (c : Container) (u : String)
    (h : user_txs c u = []) :
    delete_last_transaction c u
      = ((get_or_create_account c u).1, .error "StopIteration") := by
  have h2 : user_txs (get_or_create_account c u).1 u = [] :=
    (user_txs_of_txs_eq u (get_or_create_txs c u)).trans h
  simp [delete_last_transaction, py_truthy_iterator, query_top1_desc, h2, latest_tx]

theorem delete_last_some (c : Container) (u : String) (t : Transaction)
    (h : latest_tx (user_txs c u) = some t) :
    delete_last_transaction c u
      = ({ (get_or_create_account c u).1 with
           accounts := dict_set (get_or_create_account c u).1.accounts u
             { (get_or_create_account c u).2 with
               currentBalance := (get_or_create_account c u).2.currentBalance - t.amount
               lastUpdated := some (get_or_create_account c u).1.clock }
           txs := (get_or_create_account c u).1.txs.filter (fun s => s.id ≠ t.id)
           clock := (get_or_create_account c u).1.clock + 1 },
         .ok ({ (get_or_create_account c u).2 with
                currentBalance := (get_or_create_account c u).2.currentBalance - t.amount
                lastUpdated := some (get_or_create_account c u).1.clock },
              some t)) := by
  have h2 : user_txs (get_or_create_account c u).1 u = user_txs c u :=
    user_txs_of_txs_eq u (get_or_create_txs c u)
  simp [delete_last_transaction, py_truthy_iterator, query_top1_desc, h2, h]

theorem filter_comm_bool {α : Type} (p q : α → Bool) (l : List α) :
    (l.filter p).filter q = (l.filter q).filter p := by
  simp [List.filter_filter, Bool.and_comm]

theorem ledger_inv_add (c : Container) (u : String) (a : ℚ) (ty : String)
    (d : Option String) (h : LedgerInv c u) :
    LedgerInv (add_transaction c u a ty d).1 u := by
  obtain ⟨acct, hacct, hbal⟩ := h.account_ok
  have hg : get_or_create_account c u = (c, acct) := get_or_create_eq_of_some hacct
  refine ⟨⟨(add_transaction c u a ty d).2.1, add_transaction_acct_lookup c u a ty d, ?_⟩,
    ?_, ?_⟩
  · rw [add_transaction_acct, user_txs_add_transaction, tx_sum_append]
    simp [add_transaction_tx, hg, hbal, tx_sum]
  · intro t ht
    rw [add_transaction_txs] at ht
    rw [add_transaction_clock]
    rcases List.mem_append.mp ht with hold | hnew
    · have := h.bounded t hold
      omega
    · simp only [List.mem_singleton] at hnew
      subst hnew
      rw [add_transaction_tx]
      simp [hg]
  · rw [add_transaction_txs]
    rw [List.pairwise_append]
    refine ⟨h.distinct, by simp, ?_⟩
    intro t1 ht1 t2 ht2
    simp only [List.mem_singleton] at ht2
    subst ht2
    rw [add_transaction_tx]
    have := h.bounded t1 ht1
    simp [hg]
    omega

theorem ledger_inv_delete (c : Container) (u : String) (h : LedgerInv c u) :
    LedgerInv (delete_last_transaction c u).1 u := by
  obtain ⟨acct, hacct, hbal⟩ := h.account_ok
  have hg : get_or_create_account c u = (c, acct) := get_or_create_eq_of_some hacct
  cases hl : latest_tx (user_txs c u) with
  | none =>
    have hempty : user_txs c u = [] := (latest_tx_eq_none_iff _).mp hl
    rw [delete_last_empty c u hempty, hg]
    exact h
  | some t =>
    have htmem : t ∈ user_txs c u := latest_tx_mem hl
    have htmem' : t ∈ c.txs := (List.mem_filter.mp htmem).1
    have hpwu : (user_txs c u).Pairwise (fun t1 t2 => t1.id ≠ t2.id) :=
      h.distinct.sublist (List.filter_sublist c.txs)
    rw [delete_last_some c u t hl, hg]
    refine ⟨⟨_, alookup_dict_set_self _ _ _, ?_⟩, ?_, ?_⟩
    · show acct.currentBalance - t.amount = tx_sum (user_txs _ u)
      have hutxs : user_txs
            ({ c with
               accounts := dict_set c.accounts u
                 { acct with
                   currentBalance := acct.currentBalance - t.amount
                   lastUpdated := some c.clock }
               txs := c.txs.filter (fun s => s.id ≠ t.id)
               clock := c.clock + 1 } : Container) u
          = (user_txs c u).filter (fun s => s.id ≠ t.id) := by
        simp only [user_txs]
        exact filter_comm_bool _ _ c.txs
      rw [hutxs, tx_sum_filter_ne_id _ t htmem hpwu, hbal]
    · intro t1 ht1
      have ht1' : t1 ∈ c.txs := (List.mem_filter.mp ht1).1
      have hb := h.bounded t1 ht1'
      show t1.id < c.clock + 1 ∧ t1.timestamp < c.clock + 1
      omega
    · exact h.distinct.sublist (List.filter_sublist c.txs)

theorem ledger_inv_run (u : String) (c : Container) (ops : List LOp)
    (h : LedgerInv c u) : LedgerInv (run_ops u c ops) u := by
  induction ops generalizing c with
  | nil => exact h
  | cons op rest ih =>
    cases op with
    | add a ty d => exact ih _ (ledger_inv_add c u a ty d h)
    | delete_last => exact ih _ (ledger_inv_delete c u h)

theorem ledger_inv_fresh (u : String) : LedgerInv (fresh_container u) u := by
  refine ⟨⟨default_account u, ?_, ?_⟩, ?_, ?_⟩ <;>
    simp [fresh_container, alookup, user_txs, tx_sum, default_account]

theorem add_transaction_amount (c : Container) (u : String) (a : ℚ) (ty : String)
    (d : Option String) : (add_transaction c u a ty d).2.2.amount = a := rfl

theorem user_txs_run_adds (u ty : String) (d : Option String) (amounts : List ℚ)
    (c : Container) :
    (user_txs (run_ops u c (amounts.map (fun a => LOp.add a ty d))) u).map
        Transaction.amount
      = (user_txs c u).map Transaction.amount ++ amounts := by
  induction amounts generalizing c with
  | nil => simp [run_ops]
  | cons a rest ih =>
    simp only [List.map_cons, run_ops, run_op]
    rw [ih, user_txs_add_transaction]
    simp [add_transaction_amount]

/-! ### Claim theorems -/
/-- C1: starting from a fresh zero-balance account, after any finite sequence
of `add_transaction` / `delete_last_transaction` calls the stored account's
`currentBalance` equals the sum of the `amount` fields of the user's
currently-stored transactions; in particular, after N `add_transaction`
calls with amounts `a1..aN` the balance is `a1 + ... + aN`. -/
theorem c1_balance_invariant (u : String) (ops : List LOp) :
    account_balance (run_ops u (fresh_container u) ops) u
      = tx_sum (user_txs (run_ops u (fresh_container u) ops) u)
    ∧ ∀ (amounts : List ℚ) (ty : String) (d : Option String),
        account_balance
            (run_ops u (fresh_container u) (amounts.map (fun a => LOp.add a ty d))) u
          = amounts.sum := by
  constructor
  · have h := ledger_inv_run u (fresh_container u) ops (ledger_inv_fresh u)
    obtain ⟨a, ha, hb⟩ := h.account_ok
    simp [account_balance, ha, hb]
  · intro amounts ty d
    have h := ledger_inv_run u (fresh_container u)
      (amounts.map (fun a => LOp.add a ty d)) (ledger_inv_fresh u)
    obtain ⟨a, ha, hb⟩ := h.account_ok
    have hmap := user_txs_run_adds u ty d amounts (fresh_container u)
    have hnil : user_txs (fresh_container u) u = [] := by
      simp [fresh_container, user_txs]
    rw [hnil] at hmap
    simp only [List.map_nil, List.nil_append] at hmap
    simp [account_balance, ha, hb, tx_sum, hmap]

/-- C2: `add_transaction` appends a transaction whose `balanceAfter` is the
prior balance plus the amount, updates the account balance to that value,
stamps `lastUpdated` with the current time, increments `version` by one,
derives `direction` from the amount's sign, and returns the updated account
with the created transaction — in both the remote-backed and file-backed
repositories. -/
theorem c2_add_transaction_spec (c : Container) (u : String) (a : ℚ) (ty : String)
    (d : Option String) (data : AllowanceData) (now : Nat) :
    ((add_transaction c u a ty d).2.2.balanceAfter
        = (get_or_create_account c u).2.currentBalance + a
      ∧ (add_transaction c u a ty d).2.1.currentBalance
        = (get_or_create_account c u).2.currentBalance + a
      ∧ (add_transaction c u a ty d).2.1.lastUpdated = some c.clock
      ∧ (add_transaction c u a ty d).2.1.version
        = (get_or_create_account c u).2.version + 1
      ∧ (add_transaction c u a ty d).2.2.direction
        = (if 0 ≤ a then "credit" else "debit")
      ∧ (add_transaction c u a ty d).2.2.amount = a
      ∧ (add_transaction c u a ty d).2.2.txType = ty
      ∧ (add_transaction c u a ty d).2.2.description = d
      ∧ (add_transaction c u a ty d).2.2.userId = u
      ∧ user_txs (add_transaction c u a ty d).1 u
        = user_txs c u ++ [(add_transaction c u a ty d).2.2]
      ∧ alookup (add_transaction c u a ty d).1.accounts u
        = some (add_transaction c u a ty d).2.1)
    ∧ ((file_add_transaction data u a ty d now).2.2.balanceAfter
        = (get_entry (ensure_user data u) u).account.currentBalance + a
      ∧ (file_add_transaction data u a ty d now).2.1.currentBalance
        = (get_entry (ensure_user data u) u).account.currentBalance + a
      ∧ (file_add_transaction data u a ty d now).2.1.lastUpdated = some now
      ∧ (file_add_transaction data u a ty d now).2.1.version
        = (get_entry (ensure_user data u) u).account.version + 1
      ∧ (file_add_transaction data u a ty d now).2.2.direction
        = (if 0 ≤ a then "credit" else "debit")
      ∧ (file_add_transaction data u a ty d now).2.2.amount = a
      ∧ (file_add_transaction data u a ty d now).2.2.txType = ty
      ∧ (file_add_transaction data u a ty d now).2.2.description = d
      ∧ (file_add_transaction data u a ty d now).2.2.userId = u
      ∧ alookup (file_add_transaction data u a ty d now).1 u
        = some { account := (file_add_transaction data u a ty d now).2.1
                 transactions := (get_entry (ensure_user data u) u).transactions
                   ++ [(file_add_transaction data u a ty d now).2.2] }) := by
  refine ⟨⟨rfl, rfl, ?_, rfl, rfl, rfl, rfl, rfl, rfl,
      user_txs_add_transaction c u a ty d,
      add_transaction_acct_lookup c u a ty d⟩,
    ⟨rfl, rfl, rfl, rfl, rfl, rfl, rfl, rfl, rfl, ?_⟩⟩
  · show some (get_or_create_account c u).1.clock = some c.clock
    rw [get_or_create_clock]
  · show alookup (dict_set (ensure_user data u) u _) u = _
    exact alookup_dict_set_self _ _ _

/-- C3 counterexample: on the remote-backed repository, `add_transaction`
then `delete_last_transaction` leaves `version` at 2 — the deletion does not
bump it to 3 as the claim requires ("bumps both version and lastUpdated"). -/
theorem c3_counterexample :
    account_version (add_transaction (fresh_container "Milou") "Milou" 5 "MANUAL"
        none).1 "Milou" = 2
    ∧ account_version (delete_last_transaction
        (add_transaction (fresh_container "Milou") "Milou" 5 "MANUAL" none).1
        "Milou").1 "Milou" = 2
    ∧ ((2 : Int) ≠ 2 + 1) := by
  refine ⟨by decide, by decide, by decide⟩

/-- C3 (amended): in the remote-backed repository,
`delete_last_transaction` on a user with at least one stored transaction
removes the transaction with the latest timestamp, subtracts its amount from
`currentBalance` and stamps `lastUpdated`, but leaves `version` unchanged;
consequently `add_transaction` immediately followed by
`delete_last_transaction` restores the pre-add balance and returns a deleted
transaction equal to the added one.  (The file-backed repository implements
no `delete_last_transaction` at all.) -/
theorem c3_delete_last_amended :
    (∀ (c : Container) (u : String) (t : Transaction),
      latest_tx (user_txs c u) = some t →
        (delete_last_transaction c u).2
          = .ok ({ (get_or_create_account c u).2 with
                   currentBalance :=
                     (get_or_create_account c u).2.currentBalance - t.amount
                   lastUpdated := some c.clock }, some t)
        ∧ t ∈ user_txs c u
        ∧ (∀ s ∈ user_txs c u, s.timestamp ≤ t.timestamp)
        ∧ user_txs (delete_last_transaction c u).1 u
          = (user_txs c u).filter (fun s => s.id ≠ t.id))
    ∧ (∀ (c : Container) (u : String) (a : ℚ) (ty : String) (d : Option String),
      (∀ s ∈ user_txs c u, s.timestamp < c.clock ∧ s.id < c.clock) →
        (delete_last_transaction (add_transaction c u a ty d).1 u).2
          = .ok ({ (add_transaction c u a ty d).2.1 with
                   currentBalance :=
                     (add_transaction c u a ty d).2.1.currentBalance - a
                   lastUpdated := some (add_transaction c u a ty d).1.clock },
                 some (add_transaction c u a ty d).2.2)
        ∧ (add_transaction c u a ty d).2.1.currentBalance - a
            = (get_or_create_account c u).2.currentBalance
        ∧ user_txs (delete_last_transaction (add_transaction c u a ty d).1 u).1 u
            = user_txs c u) := by
  constructor
  · intro c u t hl
    have hgc : (get_or_create_account c u).1.clock = c.clock := get_or_create_clock c u
    have heq := delete_last_some c u t hl
    refine ⟨?_, latest_tx_mem hl, latest_tx_ge hl, ?_⟩
    · rw [heq, hgc]
    · rw [heq]
      show ((get_or_create_account c u).1.txs.filter
            (fun s => s.id ≠ t.id)).filter (fun s2 => s2.userId = u) = _
      rw [filter_comm_bool, get_or_create_txs]
      rfl
  · intro c u a ty d hbnd
    have htx : (add_transaction c u a ty d).2.2.timestamp = c.clock := by
      rw [add_transaction_tx]
      exact get_or_create_clock c u
    have htxid : (add_transaction c u a ty d).2.2.id = c.clock := by
      rw [add_transaction_tx]
      exact get_or_create_clock c u
    have hl : latest_tx (user_txs (add_transaction c u a ty d).1 u)
        = some (add_transaction c u a ty d).2.2 := by
      rw [user_txs_add_transaction]
      exact latest_tx_append_gt _ _
        (fun s hs => htx ▸ (hbnd s hs).1)
    have hgooc : get_or_create_account (add_transaction c u a ty d).1 u
        = ((add_transaction c u a ty d).1, (add_transaction c u a ty d).2.1) :=
      get_or_create_eq_of_some (add_transaction_acct_lookup c u a ty d)
    have heq := delete_last_some (add_transaction c u a ty d).1 u
      (add_transaction c u a ty d).2.2 hl
    refine ⟨?_, ?_, ?_⟩
    · rw [heq, hgooc]
      rw [show (add_transaction c u a ty d).2.2.amount = a from rfl]
    · rw [add_transaction_acct]
      ring_nf
    · have h1 : (get_or_create_account (add_transaction c u a ty d).1 u).1.txs
          = (add_transaction c u a ty d).1.txs := get_or_create_txs _ u
      have h2 : (user_txs c u).filter
          (fun s => s.id ≠ (add_transaction c u a ty d).2.2.id) = user_txs c u := by
        apply List.filter_eq_self.mpr
        intro s hs
        have hid := (hbnd s hs).2
        simp only [decide_eq_true_eq]
        omega
      have h3 : ([(add_transaction c u a ty d).2.2].filter
          (fun s => s.id ≠ (add_transaction c u a ty d).2.2.id)) = [] := by
        simp
      rw [heq]
      show ((get_or_create_account (add_transaction c u a ty d).1 u).1.txs.filter
            (fun s => s.id ≠ (add_transaction c u a ty d).2.2.id)).filter
            (fun s2 => s2.userId = u) = _
      rw [filter_comm_bool, h1]
      change ((user_txs (add_transaction c u a ty d).1 u).filter
        (fun s => s.id ≠ (add_transaction c u a ty d).2.2.id)) = user_txs c u
      rw [user_txs_add_transaction, List.filter_append, h2, h3, List.append_nil]

/-- C6: on the remote-backed repository, deleting the last transaction of a
user with zero stored transactions raises `StopIteration` (the emptiness
guard tests the always-truthy query iterator, so `transactions.next()` runs
on an empty result set) instead of returning the unchanged account with an
empty marker; the repository state is left unchanged. -/
theorem c6_delete_empty_raises :
    delete_last_transaction (fresh_container "Milou") "Milou"
      = (fresh_container "Milou", .error "StopIteration")
    ∧ py_truthy_iterator [] = true := by
  refine ⟨rfl, rfl⟩

/-- C4 counterexample: `reset` does not size sequences from the Config.  For
the remote-backed state store it always writes the fixed
`{Milou: {choreList: []}, Luca: {choreList: []}}`: the `Milou` entry is an
object, not a boolean sequence of length 21 (`3 * 7`), and there is no
`general` entry; the file-backed default state is likewise a hardcoded
structure with no boolean sequences. -/
theorem c4_counterexample :
    (cosmos_state_reset none "household2").1 = cosmos_default_state
    ∧ bool_seq_length (jget cosmos_default_state "Milou" .null) = none
    ∧ jget cosmos_default_state "general" .null = .null
    ∧ bool_seq_length (jget state_default_content "Milou" .null) = none := by
  exact ⟨rfl, rfl, rfl, rfl⟩

/-- C4 (amended): `StateStore.reset` ignores the Config document entirely;
the remote-backed store always writes and returns the fixed
Milou/Luca empty-choreList state, and the file-backed store always writes
its hardcoded demo content.  No boolean sequence sized by
`len(personalTasks) * 7` is produced. -/
theorem c4_reset_amended :
    (∀ (st : Option Json) (uid : String),
      cosmos_state_reset st uid
        = (cosmos_default_state, some (wrap_state_item uid cosmos_default_state)))
    ∧ (∀ f : JFile, store_reset state_default_content f
        = (.stored (ser_val state_default_content), true)) := by
  exact ⟨fun st uid => rfl, fun f => rfl⟩

/-- C5 counterexample: the file-backed `update_settings` has no replace mode;
its only behaviour merges, so updating `{"weeklyAllowance": 5}` on the
default Milou account preserves the other settings key `autoPayDayOfWeek`
(where the claim's `replace=True` says it would be dropped). -/
theorem c5_counterexample :
    alookup (file_update_settings allowance_default_content "Milou"
        [("weeklyAllowance", 5)] 0).2.settings "autoPayDayOfWeek" = some 5
    ∧ (some (5 : ℚ) ≠ (none : Option ℚ)) := by
  exact ⟨rfl, by decide⟩

/-- C5 (amended): the remote-backed `update_settings` merges by default
(preserving settings keys absent from the new map and applying the given
bindings) and fully replaces with `replace=True` (dropping absent keys),
bumping `version` and `lastUpdated` and storing the returned account; the
file-backed `update_settings` has no replace parameter and always merges,
also bumping `version`/`lastUpdated`. -/
theorem c5_update_settings_amended :
    (∀ (c : Container) (u : String) (ns : Settings),
      (update_settings c u ns false).2.settings
          = dict_update (get_or_create_account c u).2.settings ns
      ∧ (∀ k, k ∉ ns.map Prod.fst →
          alookup (update_settings c u ns false).2.settings k
            = alookup (get_or_create_account c u).2.settings k)
      ∧ (∀ k v, (ns.map Prod.fst).Nodup → alookup ns k = some v →
          alookup (update_settings c u ns false).2.settings k = some v)
      ∧ (update_settings c u ns false).2.version
          = (get_or_create_account c u).2.version + 1
      ∧ (update_settings c u ns false).2.lastUpdated = some c.clock
      ∧ alookup (update_settings c u ns false).1.accounts u
          = some (update_settings c u ns false).2
      ∧ (update_settings c u ns true).2.settings = ns
      ∧ (∀ k, k ∉ ns.map Prod.fst →
          alookup (update_settings c u ns true).2.settings k = none)
      ∧ (update_settings c u ns true).2.version
          = (get_or_create_account c u).2.version + 1
      ∧ (update_settings c u ns true).2.lastUpdated = some c.clock)
    ∧ (∀ (data : AllowanceData) (u : String) (ns : Settings) (now : Nat),
      (file_update_settings data u ns now).2.settings
          = dict_update (get_entry (ensure_user data u) u).account.settings ns
      ∧ (∀ k, k ∉ ns.map Prod.fst →
          alookup (file_update_settings data u ns now).2.settings k
            = alookup (get_entry (ensure_user data u) u).account.settings k)
      ∧ (∀ k v, (ns.map Prod.fst).Nodup → alookup ns k = some v →
          alookup (file_update_settings data u ns now).2.settings k = some v)
      ∧ (file_update_settings data u ns now).2.version
          = (get_entry (ensure_user data u) u).account.version + 1
      ∧ (file_update_settings data u ns now).2.lastUpdated = some now
      ∧ alookup (file_update_settings data u ns now).1 u
          = some { account := (file_update_settings data u ns now).2
                   transactions := (get_entry (ensure_user data u) u).transactions }) := by
  constructor
  · intro c u ns
    refine ⟨rfl, ?_, ?_, rfl, ?_, ?_, rfl, ?_, rfl, ?_⟩
    · intro k hk
      exact alookup_dict_update_not_mem _ _ _ hk
    · intro k v hnd hv
      exact alookup_dict_update_mem _ _ _ _ hnd hv
    · show some (get_or_create_account c u).1.clock = some c.clock
      rw [get_or_create_clock]
    · exact alookup_dict_set_self _ _ _
    · intro k hk
      exact alookup_eq_none_of_not_mem _ _ hk
    · show some (get_or_create_account c u).1.clock = some c.clock
      rw [get_or_create_clock]
  · intro data u ns now
    refine ⟨rfl, ?_, ?_, rfl, rfl, ?_⟩
    · intro k hk
      exact alookup_dict_update_not_mem _ _ _ hk
    · intro k v hnd hv
      exact alookup_dict_update_mem _ _ _ _ hnd hv
    · exact alookup_dict_set_self _ _ _

/-- C5 witness: on a fresh default remote account, merging
`{"weeklyAllowance": 5}` keeps `tasksPerWeek` at its default 7, while
`replace=True` drops it. -/
theorem c5_witness :
    ("tasksPerWeek" ∉ ([(("weeklyAllowance" : String), (5 : ℚ))].map Prod.fst))
    ∧ alookup (update_settings (fresh_container "Milou") "Milou"
        [("weeklyAllowance", 5)] false).2.settings "tasksPerWeek" = some 7
    ∧ alookup (update_settings (fresh_container "Milou") "Milou"
        [("weeklyAllowance", 5)] true).2.settings "tasksPerWeek" = none := by
  have hnot : ("tasksPerWeek" : String)
      ∉ ([(("weeklyAllowance" : String), (5 : ℚ))].map Prod.fst) := by
    simp
  have h := c5_update_settings_amended.1 (fresh_container "Milou") "Milou"
    [("weeklyAllowance", 5)]
  refine ⟨hnot, ?_, ?_⟩
  · rw [h.2.1 "tasksPerWeek" hnot]
    rfl
  · exact h.2.2.2.2.2.2.2.1 "tasksPerWeek" hnot

/-- C7: `load` on a missing file, or on a file whose contents fail to parse
as a document, writes the store's default content and returns it; on a file
that parses it returns the persisted document and leaves the file alone. -/
theorem c7_store_load_recovers (dflt : Json) :
    store_load dflt .absent = (dflt, .stored (ser_val dflt))
    ∧ (∀ ts : List JTok, parse_doc ts = none →
        store_load dflt (.stored ts) = (dflt, .stored (ser_val dflt)))
    ∧ (∀ (ts : List JTok) (d : Json), parse_doc ts = some d →
        store_load dflt (.stored ts) = (d, .stored ts)) := by
  refine ⟨rfl, ?_, ?_⟩
  · intro ts h
    simp [store_load, h, init_file, store_reset, store_save]
  · intro ts d h
    simp [store_load, h]

/-- C7 witness: a lone comma is unparseable and recovers to the config
default; a serialized document parses and is returned unchanged. -/
theorem c7_witness :
    parse_doc [JTok.comma] = none
    ∧ store_load config_default_content (.stored [JTok.comma])
        = (config_default_content, .stored (ser_val config_default_content))
    ∧ parse_doc (ser_val (Json.num 7)) = some (Json.num 7)
    ∧ store_load config_default_content (.stored (ser_val (Json.num 7)))
        = (Json.num 7, .stored (ser_val (Json.num 7))) := by
  have h1 : parse_doc [JTok.comma] = none := rfl
  have h2 : parse_doc (ser_val (Json.num 7)) = some (Json.num 7) :=
    parse_doc_ser (Json.num 7)
  exact ⟨h1, (c7_store_load_recovers config_default_content).2.1 _ h1, h2,
    (c7_store_load_recovers config_default_content).2.2 _ _ h2⟩

/-- C9: saving any document and loading it back returns an equal document,
for the file-backed store (through the serialize/parse round trip) and for
the remote-backed state store (through the wrap/unwrap of the `data`
field). -/
theorem c9_round_trip (d : Json) (f : JFile) (dflt : Json) (st : Option Json)
    (uid : String) :
    store_load dflt (store_save f d).1 = (d, (store_save f d).1)
    ∧ (cosmos_state_load (cosmos_state_save st uid d).1 uid).1 = d
    ∧ (cosmos_state_load (cosmos_state_save st uid d).1 uid).2
        = (cosmos_state_save st uid d).1 := by
  refine ⟨?_, ?_, rfl⟩
  · show store_load dflt (.stored (ser_val d)) = _
    simp [store_load, parse_doc_ser d, store_save]
  · rfl

/-- C3 witness: on a fresh account (whose empty transaction list makes the
clock hypothesis vacuous), adding 5 and deleting the last transaction leaves
the user's stored transactions as before the add. -/
theorem c3_delete_witness :
    (∀ s ∈ user_txs (fresh_container "Milou") "Milou",
        s.timestamp < (fresh_container "Milou").clock
        ∧ s.id < (fresh_container "Milou").clock)
    ∧ user_txs (delete_last_transaction
        (add_transaction (fresh_container "Milou") "Milou" 5 "MANUAL" none).1
        "Milou").1 "Milou"
      = user_txs (fresh_container "Milou") "Milou" := by
  have hhyp : ∀ s ∈ user_txs (fresh_container "Milou") "Milou",
      s.timestamp < (fresh_container "Milou").clock
      ∧ s.id < (fresh_container "Milou").clock := by
    intro s hs
    simp [user_txs, fresh_container] at hs
  exact ⟨hhyp,
    (c3_delete_last_amended.2 (fresh_container "Milou") "Milou" 5 "MANUAL" none
      hhyp).2.2⟩

theorem add_transaction_txType (c : Container) (u : String) (a : ℚ) (ty : String)
    (d : Option String) : (add_transaction c u a ty d).2.2.txType = ty := rfl

theorem account_balance_add (c : Container) (u : String) (a : ℚ) (ty : String)
    (d : Option String) :
    account_balance (add_transaction c u a ty d).1 u
      = (get_or_create_account c u).2.currentBalance + a := by
  simp [account_balance, add_transaction_acct_lookup, add_transaction_acct]

/-- C8 (amended): for every user item processed by `end_week`, the route
issues one ALLOWANCE transaction for the account's `weeklyAllowance` and one
BONUS transaction for `extra * bonusPerExtraTask` exactly when
`extra = min(max(0, completed - tasksPerWeek), maximumExtraTasks)` is
nonzero (for nonnegative `maximumExtraTasks` this is the same as
`extra > 0`), leaving the balance at the previous balance plus the weekly
allowance plus the bonus; when every user settles without an exception the
state store is then reset to the hardcoded default state. -/
theorem c8_end_week_amended :
    (∀ (c : Container) (u : String) (ustate chore_list : Json) (n : Nat),
      py_dict_get ustate "choreList" (.arr []) = .ok chore_list →
      py_len chore_list = .ok n →
        (end_week_user c u ustate).2 = .ok ()
        ∧ (user_txs (end_week_user c u ustate).1 u).map
              (fun tx => (tx.txType, tx.amount))
          = (user_txs c u).map (fun tx => (tx.txType, tx.amount))
            ++ [("ALLOWANCE", weekly_allowance_of (get_or_create_account c u).2)]
            ++ (if extra_tasks (get_or_create_account c u).2 n ≠ 0 then
                  [("BONUS", (extra_tasks (get_or_create_account c u).2 n : ℚ)
                    * bonus_rate_of (get_or_create_account c u).2)]
                else [])
        ∧ account_balance (end_week_user c u ustate).1 u
          = (get_or_create_account c u).2.currentBalance
            + weekly_allowance_of (get_or_create_account c u).2
            + (if extra_tasks (get_or_create_account c u).2 n ≠ 0 then
                 (extra_tasks (get_or_create_account c u).2 n : ℚ)
                   * bonus_rate_of (get_or_create_account c u).2
               else 0))
    ∧ (∀ (c : Container) (st : Option Json) (uid : String)
          (items : List (String × Json)),
        (cosmos_state_load st uid).1 = .obj items →
        (end_week_users c items).2 = .ok () →
          (end_week c st uid).2.1 = some (wrap_state_item uid cosmos_default_state)
          ∧ (end_week c st uid).1 = (end_week_users c items).1) := by
  constructor
  · intro c u ustate chore_list n hcl hlen
    have hunfold : end_week_user c u ustate =
        (if extra_tasks (get_or_create_account c u).2 n ≠ 0 then
           ((add_transaction
               (add_transaction (get_or_create_account c u).1 u
                 (weekly_allowance_of (get_or_create_account c u).2) "ALLOWANCE"
                 (some "zakgeld")).1 u
               ((extra_tasks (get_or_create_account c u).2 n : ℚ)
                 * bonus_rate_of (get_or_create_account c u).2)
               "BONUS" (some "bonus voor extra taakjes")).1, .ok ())
         else
           ((add_transaction (get_or_create_account c u).1 u
               (weekly_allowance_of (get_or_create_account c u).2) "ALLOWANCE"
               (some "zakgeld")).1, .ok ())) := by
      simp only [end_week_user, hcl, hlen]
    have h1 : user_txs (get_or_create_account c u).1 u = user_txs c u :=
      user_txs_of_txs_eq u (get_or_create_txs c u)
    have hA0 : alookup (get_or_create_account c u).1.accounts u
        = some (get_or_create_account c u).2 := get_or_create_acct c u
    have hg1 : get_or_create_account (get_or_create_account c u).1 u
        = ((get_or_create_account c u).1, (get_or_create_account c u).2) :=
      get_or_create_eq_of_some hA0
    by_cases hex : extra_tasks (get_or_create_account c u).2 n ≠ 0
    · have hg2 : get_or_create_account
          (add_transaction (get_or_create_account c u).1 u
            (weekly_allowance_of (get_or_create_account c u).2) "ALLOWANCE"
            (some "zakgeld")).1 u
          = ((add_transaction (get_or_create_account c u).1 u
              (weekly_allowance_of (get_or_create_account c u).2) "ALLOWANCE"
              (some "zakgeld")).1,
             (add_transaction (get_or_create_account c u).1 u
              (weekly_allowance_of (get_or_create_account c u).2) "ALLOWANCE"
              (some "zakgeld")).2.1) :=
        get_or_create_eq_of_some (add_transaction_acct_lookup _ _ _ _ _)
      refine ⟨?_, ?_, ?_⟩
      · rw [hunfold, if_pos hex]
      · rw [hunfold, if_pos hex]
        show (user_txs (add_transaction _ u _ "BONUS" _).1 u).map _ = _
        rw [user_txs_add_transaction, user_txs_add_transaction, h1]
        simp [add_transaction_txType, add_transaction_amount, if_pos hex]
      · rw [hunfold, if_pos hex]
        show account_balance (add_transaction _ u _ "BONUS" _).1 u = _
        rw [account_balance_add]
        simp only [hg2]
        rw [add_transaction_acct]
        simp only [hg1]
        rw [if_pos hex]
    · refine ⟨?_, ?_, ?_⟩
      · rw [hunfold, if_neg hex]
      · rw [hunfold, if_neg hex]
        show (user_txs (add_transaction _ u _ "ALLOWANCE" _).1 u).map _ = _
        rw [user_txs_add_transaction, h1]
        simp [add_transaction_txType, add_transaction_amount, if_neg hex]
      · rw [hunfold, if_neg hex]
        show account_balance (add_transaction _ u _ "ALLOWANCE" _).1 u = _
        rw [account_balance_add]
        simp only [hg1]
        rw [if_neg hex]
        ring_nf
  · intro c st uid items hstate hok
    rcases hE : end_week_users c items with ⟨c1, r⟩
    rw [hE] at hok
    have hr : r = .ok () := hok
    subst hr
    constructor
    · simp only [end_week, hstate, hE]
      rfl
    · simp only [end_week, hstate, hE]

/-- C8 counterexample: with `maximumExtraTasks = -1`, `tasksPerWeek = 1` and
five completed chores, `extra = min(max(0, 5 - 1), -1) = -1` is not positive,
yet `end_week` issues a BONUS transaction (of -0.5): the bonus is issued when
`extra` is nonzero, not when `extra > 0` as the claim states. -/
theorem c8_counterexample :
    ((user_txs (end_week_user c8_neg_container "A" c8_neg_state).1 "A").map
        Transaction.txType) = ["ALLOWANCE", "BONUS"]
    ∧ extra_tasks (get_or_create_account c8_neg_container "A").2 5 = -1
    ∧ ¬((0 : Int) < -1) := by
  exact ⟨rfl, rfl, by decide⟩

/-- C8 witness: with the spec's example numbers, `extra` is capped at 2, the
bonus is `2 * 0.5 = 1.0`, and the final balance is the previous balance (0)
plus the weekly allowance (2) plus 1. -/
theorem c8_witness :
    py_dict_get c8_pos_state "choreList" (.arr [])
        = .ok (.arr [.str "t1", .str "t2", .str "t3"])
    ∧ py_len (.arr [.str "t1", .str "t2", .str "t3"]) = .ok 3
    ∧ extra_tasks (get_or_create_account c8_pos_container "A").2 3 = 2
    ∧ account_balance (end_week_user c8_pos_container "A" c8_pos_state).1 "A" = 3 := by
  have h1 : py_dict_get c8_pos_state "choreList" (.arr [])
      = .ok (.arr [.str "t1", .str "t2", .str "t3"]) := rfl
  have h2 : py_len (.arr [.str "t1", .str "t2", .str "t3"]) = .ok 3 := rfl
  have h := (c8_end_week_amended.1 c8_pos_container "A" c8_pos_state
    (.arr [.str "t1", .str "t2", .str "t3"]) 3 h1 h2).2.2
  refine ⟨h1, h2, rfl, ?_⟩
  rw [h]
  have e1 : (get_or_create_account c8_pos_container "A").2.currentBalance = 0 := rfl
  have e2 : weekly_allowance_of (get_or_create_account c8_pos_container "A").2
      = 2 := rfl
  have e3 : extra_tasks (get_or_create_account c8_pos_container "A").2 3 = 2 := rfl
  have e4 : bonus_rate_of (get_or_create_account c8_pos_container "A").2
      = mkRat 1 2 := rfl
  rw [e1, e2, e3, e4]
  norm_num [Rat.mkRat_eq_div]

/-- C10 counterexample: on the file-backed repository with its default
content, the Milou account's `id` is null before `update_settings` and is
set to `account#Milou` by the call — a field outside the
settings/lastUpdated/version set the claim allows. -/
theorem c10_counterexample :
    default_user_entry.account.id = none
    ∧ alookup allowance_default_content "Milou" = some default_user_entry
    ∧ (file_update_settings allowance_default_content "Milou" [] 0).2.id
        = some ("account#" ++ "Milou")
    ∧ some ("account#" ++ "Milou") ≠ (none : Option String) := by
  refine ⟨rfl, rfl, rfl, by simp⟩

/-- C10 (amended): `update_settings` leaves `currentBalance` and the user's
stored transactions unchanged in both repositories, and also preserves the
account's identity/currency fields — except that the file-backed
implementation additionally sets `account.id` from null to
`account#<user_id>` while ensuring the user record. -/
theorem c10_update_settings_frame :
    (∀ (c : Container) (u : String) (ns : Settings) (r : Bool),
      (update_settings c u ns r).2.currentBalance
          = (get_or_create_account c u).2.currentBalance
      ∧ (update_settings c u ns r).2.id = (get_or_create_account c u).2.id
      ∧ (update_settings c u ns r).2.userId = (get_or_create_account c u).2.userId
      ∧ (update_settings c u ns r).2.currency
          = (get_or_create_account c u).2.currency
      ∧ (update_settings c u ns r).2.entityType
          = (get_or_create_account c u).2.entityType
      ∧ user_txs (update_settings c u ns r).1 u = user_txs c u)
    ∧ (∀ (data : AllowanceData) (u : String) (ns : Settings) (now : Nat),
      (file_update_settings data u ns now).2.currentBalance
          = (get_entry (ensure_user data u) u).account.currentBalance
      ∧ (get_entry (file_update_settings data u ns now).1 u).transactions
          = (get_entry (ensure_user data u) u).transactions
      ∧ (file_update_settings data u ns now).2.currency
          = (get_entry (ensure_user data u) u).account.currency
      ∧ (file_update_settings data u ns now).2.entityType
          = (get_entry (ensure_user data u) u).account.entityType
      ∧ (file_update_settings data u ns now).2.id
          = (get_entry (ensure_user data u) u).account.id
      ∧ (∀ e, alookup data u = some e →
          (file_update_settings data u ns now).2.id
            = (if e.account.id = none then some ("account#" ++ u)
               else e.account.id))) := by
  constructor
  · intro c u ns r
    refine ⟨rfl, rfl, rfl, rfl, rfl, ?_⟩
    have ht : (update_settings c u ns r).1.txs = c.txs := by
      have h0 : (update_settings c u ns r).1.txs
          = (get_or_create_account c u).1.txs := rfl
      rw [h0, get_or_create_txs]
    exact user_txs_of_txs_eq u ht
  · intro data u ns now
    have hent : get_entry (file_update_settings data u ns now).1 u
        = { get_entry (ensure_user data u) u with
            account := (file_update_settings data u ns now).2 } := by
      show get_entry (dict_set (ensure_user data u) u _) u = _
      simp [get_entry, alookup_dict_set_self]
      rfl
    refine ⟨rfl, ?_, rfl, rfl, rfl, ?_⟩
    · rw [hent]
    · intro e he
      show (get_entry (ensure_user data u) u).account.id = _
      by_cases hid : e.account.id = none
      · have hens : ensure_user data u
            = dict_set data u
              { e with account := { e.account with
                id := some ("account#" ++ u) } } := by
          simp [ensure_user, he, hid]
        rw [hens, if_pos hid]
        simp [get_entry, alookup_dict_set_self]
      · have hens : ensure_user data u = data := by
          simp [ensure_user, he, hid]
        rw [hens, if_neg hid]
        simp [get_entry, he]

/-- C10 witness: updating settings of the present default Milou record sets
its null account id to `account#Milou`, per the file-backed id rule. -/
theorem c10_witness :
    alookup allowance_default_content "Milou" = some default_user_entry
    ∧ (file_update_settings allowance_default_content "Milou"
        [("weeklyAllowance", 5)] 0).2.id
      = (if default_user_entry.account.id = none then some ("account#" ++ "Milou")
         else default_user_entry.account.id) := by
  refine ⟨rfl, ?_⟩
  exact (c10_update_settings_frame.2 allowance_default_content "Milou"
    [("weeklyAllowance", 5)] 0).2.2.2.2.2 default_user_entry rfl

end Chores
